import Mathlib

set_option maxRecDepth 4000

/-!
Verification of the Undercover word game WebSocket server
(room management, membership registry, host-authoritative state publishing).

The definitions below are a shallow embedding of the server sources:
  * `src/server/src/utils/helpers.ts`   — `generateRoomId`, the two registries
  * `src/server/src/rooms/roomManager.ts` — `RoomManager`
  * `gameRoom.ts`                        — the `GameRoom` class
  * `gameHandlers.ts`                    — `setupGameHandlers` socket handlers

JavaScript `Map<string, T>` objects are embedded as association lists with
`Map` semantics: `set` overwrites in place when the key is present and
appends otherwise, `delete` removes the entry, insertion order is kept.
Since all maps here are built from the empty map through `set`/`delete`,
keys are unique and this matches `Map` exactly.
-/

/-- `PlayerRole` from `types/game.ts`. -/
inductive PlayerRole where
  | civilian
  | undercover
  | mrwhite
  | spectator
deriving Repr, DecidableEq

/-- `GamePhase` from `types/game.ts`. -/
inductive GamePhase where
  | setup
  | wordReveal
  | discussion
  | voting
  | results
  | gameEnd
deriving Repr, DecidableEq

/-- `RoleDistribution` from `types/game.ts`. -/
structure RoleDistribution where
  undercovers : Int
  mrWhites : Int
deriving Repr, DecidableEq

/-- `Player` from `types/game.ts`; the optional fields default to absent,
as in the object literals the server constructs. -/
structure Player where
  id : String
  name : String
  word : Option String := none
  role : Option PlayerRole := none
  isEliminated : Option Bool := none
  score : Option Int := none
  submittedDescription : Option String := none
deriving Repr, DecidableEq

/-- `GameState` from `types/game.ts`; `votingResults` (a
`Record<string, string>`) is embedded as an association list. -/
structure GameState where
  players : List Player
  phase : GamePhase
  currentRound : Int
  majorityWord : String
  undercoverWord : String
  votingResults : Option (List (String × String)) := none
  speakingOrder : Option (List String) := none
  lastEliminatedId : Option String := none
  winner : Option String := none
  mrWhiteGuess : Option String := none
  roleDistribution : RoleDistribution
deriving Repr, DecidableEq

/-- JavaScript `Map.get`: value at the key, if present. -/
def mapGet {α : Type} : List (String × α) → String → Option α
  | [], _ => none
  | kv :: rest, k => if kv.1 = k then some kv.2 else mapGet rest k

/-- JavaScript `Map.has`. -/
def mapHas {α : Type} : List (String × α) → String → Bool
  | [], _ => false
  | kv :: rest, k => if kv.1 = k then true else mapHas rest k

/-- JavaScript `Map.set`: overwrite in place if the key is present
(keys are unique in all maps built here), append otherwise. -/
def mapSet {α : Type} : List (String × α) → String → α → List (String × α)
  | [], k, v => [(k, v)]
  | kv :: rest, k, v => if kv.1 = k then (k, v) :: rest else kv :: mapSet rest k v

/-- JavaScript `Map.delete`. -/
def mapDelete {α : Type} : List (String × α) → String → List (String × α)
  | [], _ => []
  | kv :: rest, k => if kv.1 = k then mapDelete rest k else kv :: mapDelete rest k

theorem mapGet_mapSet_self {α : Type} (m : List (String × α)) (k : String) (v : α) :
    mapGet (mapSet m k v) k = some v := by
  induction m with
  | nil => simp [mapSet, mapGet]
  | cons kv rest ih =>
    by_cases h : kv.1 = k
    · simp [mapSet, mapGet, h]
    · simp [mapSet, mapGet, h, ih]

theorem mapGet_mapSet_ne {α : Type} (m : List (String × α)) (k k' : String) (v : α)
    (h : k' ≠ k) : mapGet (mapSet m k v) k' = mapGet m k' := by
  induction m with
  | nil => simp [mapSet, mapGet, Ne.symm h]
  | cons kv rest ih =>
    by_cases hk : kv.1 = k
    · subst hk
      simp [mapSet, mapGet, Ne.symm h]
    · simp [mapSet, mapGet, hk, h, Ne.symm h, ih]

theorem mapGet_mapDelete_self {α : Type} (m : List (String × α)) (k : String) :
    mapGet (mapDelete m k) k = none := by
  induction m with
  | nil => simp [mapDelete, mapGet]
  | cons kv rest ih =>
    by_cases h : kv.1 = k
    · simp [mapDelete, h, ih]
    · simp [mapDelete, mapGet, h, ih]

theorem mapGet_mapDelete_ne {α : Type} (m : List (String × α)) (k k' : String)
    (h : k' ≠ k) : mapGet (mapDelete m k) k' = mapGet m k' := by
  induction m with
  | nil => simp [mapDelete]
  | cons kv rest ih =>
    by_cases hk : kv.1 = k
    · subst hk
      simp [mapDelete, mapGet, Ne.symm h, ih]
    · simp [mapDelete, mapGet, hk, ih]

theorem mapHas_iff_mapGet {α : Type} (m : List (String × α)) (k : String) :
    mapHas m k = true ↔ ∃ v, mapGet m k = some v := by
  induction m with
  | nil => simp [mapHas, mapGet]
  | cons kv rest ih =>
    by_cases h : kv.1 = k
    · simp [mapHas, mapGet, h]
    · simp [mapHas, mapGet, h, ih]

theorem mapHas_mapSet {α : Type} (m : List (String × α)) (k k' : String) (v : α) :
    mapHas (mapSet m k v) k' = true ↔ (k' = k ∨ mapHas m k' = true) := by
  by_cases h : k' = k
  · subst h
    simp [mapHas_iff_mapGet, mapGet_mapSet_self]
  · rw [mapHas_iff_mapGet, mapGet_mapSet_ne m k k' v h, ← mapHas_iff_mapGet]
    simp [h]

theorem mapHas_mapDelete_self {α : Type} (m : List (String × α)) (k : String) :
    mapHas (mapDelete m k) k = false := by
  induction m with
  | nil => simp [mapDelete, mapHas]
  | cons kv rest ih =>
    by_cases hk : kv.1 = k
    · simp [mapDelete, hk, ih]
    · simp [mapDelete, mapHas, hk, ih]

theorem mapHas_mapDelete_ne {α : Type} (m : List (String × α)) (k k' : String)
    (h : k' ≠ k) : mapHas (mapDelete m k) k' = mapHas m k' := by
  induction m with
  | nil => simp [mapDelete]
  | cons kv rest ih =>
    by_cases hk : kv.1 = k
    · subst hk
      simp [mapDelete, mapHas, Ne.symm h, ih]
    · simp [mapDelete, mapHas, hk, ih]

/-- The `GameRoom` class from `gameRoom.ts`: room code, host socket id,
the `players` map (member set) and the stored `gameState` blob. -/
structure GameRoom where
  roomId : String
  hostId : String
  players : List (String × Player)
  gameState : GameState
deriving Repr, DecidableEq

/-- The `GameRoom` constructor: adds the host as the first player and
initialises the game state exactly as in `gameRoom.ts`. -/
def GameRoom.create (roomId hostId hostName : String) : GameRoom :=
  let hostPlayer : Player := { id := hostId, name := hostName }
  { roomId := roomId
    hostId := hostId
    players := mapSet [] hostId hostPlayer
    gameState :=
      { players := [hostPlayer]
        phase := GamePhase.setup
        currentRound := 1
        majorityWord := ""
        undercoverWord := ""
        roleDistribution := { undercovers := 1, mrWhites := 0 } } }

/-- `GameRoom.updateGameState`: stores the new state, then for each player
in the new state's `players` list sets that player in the members map. -/
def GameRoom.updateGameState (room : GameRoom) (newState : GameState) : GameRoom :=
  { room with
    gameState := newState
    players := newState.players.foldl (fun m p => mapSet m p.id p) room.players }

/-- `GameRoom.addPlayer`: builds the `{id, name}` record, sets it in the
members map, and pushes it onto the stored state's `players` array;
returns the updated room and the new player record. -/
def GameRoom.addPlayer (room : GameRoom) (playerId playerName : String) :
    GameRoom × Player :=
  let newPlayer : Player := { id := playerId, name := playerName }
  ({ room with
      players := mapSet room.players playerId newPlayer
      gameState :=
        { room.gameState with players := room.gameState.players ++ [newPlayer] } },
    newPlayer)

/-- `GameRoom.removePlayer`: deletes the id from the members map and
filters it out of the stored state's `players` array. -/
def GameRoom.removePlayer (room : GameRoom) (playerId : String) : GameRoom :=
  { room with
    players := mapDelete room.players playerId
    gameState :=
      { room.gameState with
        players := room.gameState.players.filter (fun p => p.id ≠ playerId) } }

/-- `GameRoom.isEmpty`. -/
def GameRoom.isEmpty (room : GameRoom) : Bool :=
  room.players.isEmpty

/-- The fixed room-code alphabet from `helpers.ts`
(`'ABCDEFGHJKLMNPQRSTUVWXYZ23456789'`). -/
def roomIdCharacters : String := "ABCDEFGHJKLMNPQRSTUVWXYZ23456789"

/-- `generateRoomId` from `helpers.ts`. The randomness source is passed in
as `rand`: `rand i` stands for the `i`-th draw, and
`rand i % roomIdCharacters.length` embeds
`Math.floor(Math.random() * characters.length)`, which is always a valid
index into the alphabet. Built by the same six-iteration append loop. -/
def generateRoomId (rand : Nat → Nat) : String :=
  (List.range 6).foldl
    (fun acc i =>
      acc.push (roomIdCharacters.toList.getD (rand i % roomIdCharacters.length) 'A'))
    ""

/-- The code-generation retry loop of `RoomManager.createRoom`
(`let roomId = generateRoomId(); while (rooms.has(roomId)) roomId = generateRoomId();`),
unrolled on explicit fuel: `gen i` is the code returned by the `i`-th call
to `generateRoomId`, and `none` means the loop is still running after
`fuel` calls. The source loop itself has no bound. -/
def pickFreshCode (gen : Nat → String) (rooms : List (String × GameRoom)) :
    Nat → Nat → Option String
  | _, 0 => none
  | i, fuel + 1 =>
    let roomId := gen i
    if mapHas rooms roomId then pickFreshCode gen rooms (i + 1) fuel
    else some roomId

/-- `RoomManager.createRoom`: picks a code not already in the `rooms` map
and stores a fresh `GameRoom` under it. -/
def RoomManager.createRoom (rooms : List (String × GameRoom))
    (gen : Nat → String) (fuel : Nat) (hostId hostName : String) :
    Option (List (String × GameRoom) × String) :=
  match pickFreshCode gen rooms 0 fuel with
  | none => none
  | some roomId =>
    some (mapSet rooms roomId (GameRoom.create roomId hostId hostName), roomId)

/-- The server state visible to the handlers in `gameHandlers.ts`:
the `RoomManager`'s rooms map and the two registries from `helpers.ts`
(`socketToPlayer` and `playerToRoom`). -/
structure ServerState where
  rooms : List (String × GameRoom)
  socketToPlayer : List (String × String)
  playerToRoom : List (String × String)
deriving Repr, DecidableEq

/-- The empty server state at startup. -/
def ServerState.initial : ServerState :=
  { rooms := [], socketToPlayer := [], playerToRoom := [] }

/-- The `createRoom` handler: creates the room, then stores the
`socketToPlayer` and `playerToRoom` bindings for the sender. -/
def handleCreateRoom (s : ServerState) (socketId username : String)
    (gen : Nat → String) (fuel : Nat) : Option (ServerState × String) :=
  match RoomManager.createRoom s.rooms gen fuel socketId username with
  | none => none
  | some (rooms', roomId) =>
    some
      ({ rooms := rooms'
         socketToPlayer := mapSet s.socketToPlayer socketId socketId
         playerToRoom := mapSet s.playerToRoom socketId roomId },
        roomId)

/-- The result passed to the `joinRoom` acknowledgement callback. -/
structure JoinResult where
  success : Bool
  message : Option String
deriving Repr, DecidableEq

/-- The `joinRoom` handler: if the room is absent the callback gets
`(false, 'Room not found')`; otherwise the sender is added to the room,
both registries are updated, and the callback gets `true`. -/
def handleJoinRoom (s : ServerState) (socketId roomId username : String) :
    ServerState × JoinResult :=
  match mapGet s.rooms roomId with
  | none => (s, { success := false, message := some "Room not found" })
  | some room =>
    let room' := (room.addPlayer socketId username).1
    ({ rooms := mapSet s.rooms roomId room'
       socketToPlayer := mapSet s.socketToPlayer socketId socketId
       playerToRoom := mapSet s.playerToRoom socketId roomId },
      { success := true, message := none })

/-- The `updateGameState` handler: resolves the sender through both
registries and the rooms map, silently drops the request unless the
resolved player id equals the room's host id, and otherwise stores the
published state via `GameRoom.updateGameState`. -/
def handleUpdateGameState (s : ServerState) (socketId : String)
    (state : GameState) : ServerState :=
  match mapGet s.socketToPlayer socketId with
  | none => s
  | some playerId =>
    match mapGet s.playerToRoom playerId with
    | none => s
    | some roomId =>
      match mapGet s.rooms roomId with
      | none => s
      | some room =>
        if room.hostId ≠ playerId then s
        else { s with rooms := mapSet s.rooms roomId (room.updateGameState state) }

/-- `handlePlayerDisconnect` (shared by `leaveRoom` and `disconnect`):
resolves the sender, removes the player from the room, deletes both
registry entries, and removes the room from the manager if it became
empty. -/
def handlePlayerDisconnect (s : ServerState) (socketId : String) : ServerState :=
  match mapGet s.socketToPlayer socketId with
  | none => s
  | some playerId =>
    match mapGet s.playerToRoom playerId with
    | none => s
    | some roomId =>
      match mapGet s.rooms roomId with
      | none => s
      | some room =>
        let room' := room.removePlayer playerId
        let s' : ServerState :=
          { rooms := mapSet s.rooms roomId room'
            socketToPlayer := mapDelete s.socketToPlayer socketId
            playerToRoom := mapDelete s.playerToRoom playerId }
        if room'.isEmpty then { s' with rooms := mapDelete s'.rooms roomId }
        else s'

/-! Concrete scenario states used by witnesses and counterexamples. -/

/-- A generator stream that always returns the code `RRRRRR`. -/
def genR : Nat → String := fun _ => "RRRRRR"

/-- Server state after `h` creates room `RRRRRR`. -/
def sHost : ServerState :=
  ((handleCreateRoom ServerState.initial "h" "H" genR 1).map Prod.fst).getD
    ServerState.initial

/-- Server state after follower `f` joins room `RRRRRR`. -/
def sTwo : ServerState := (handleJoinRoom sHost "f" "RRRRRR" "F").1

/-- A full game state the host publishes first. -/
def stA : GameState :=
  { players := [{ id := "h", name := "H" }, { id := "f", name := "F" }]
    phase := GamePhase.wordReveal
    currentRound := 1
    majorityWord := "apple"
    undercoverWord := "pear"
    roleDistribution := { undercovers := 1, mrWhites := 0 } }

/-- A different full game state a follower then attempts to publish. -/
def stB : GameState :=
  { players := [{ id := "f", name := "F" }]
    phase := GamePhase.discussion
    currentRound := 2
    majorityWord := "boat"
    undercoverWord := "ship"
    roleDistribution := { undercovers := 1, mrWhites := 0 } }

/-- Server state after the host publishes `stA` into room `RRRRRR`. -/
def sAfterA : ServerState := handleUpdateGameState sTwo "h" stA

/-- The room stored under `RRRRRR` after the host published `stA`. -/
def roomAfterA : GameRoom :=
  (mapGet sAfterA.rooms "RRRRRR").getD (GameRoom.create "RRRRRR" "h" "H")

/-- A game state whose players list mentions an id `x` that is not a
member of the room it is published into. -/
def stNewX : GameState :=
  { players := [{ id := "x", name := "X" }]
    phase := GamePhase.discussion
    currentRound := 2
    majorityWord := "moon"
    undercoverWord := "sun"
    roleDistribution := { undercovers := 1, mrWhites := 0 } }

/-- A two-member room: host `h` plus joined member `m`. -/
def roomTwoMembers : GameRoom :=
  ((GameRoom.create "R" "h" "H").addPlayer "m" "M").1

/-! Helper lemmas about `generateRoomId`. -/

theorem getD_mem_of_lt {α : Type} (l : List α) (n : Nat) (d : α) (h : n < l.length) :
    l.getD n d ∈ l := by
  induction l generalizing n with
  | nil => simp at h
  | cons x xs ih =>
    cases n with
    | zero => simp [List.getD]
    | succ m =>
      have hm : m < xs.length := by simpa using h
      simpa [List.getD] using Or.inr (by simpa [List.getD] using ih m hm)

theorem toList_foldl_push (l : List Nat) (f : Nat → Char) (acc : String) :
    (l.foldl (fun a i => a.push (f i)) acc).toList = acc.toList ++ l.map f := by
  induction l generalizing acc with
  | nil => simp
  | cons x xs ih =>
    rw [List.foldl_cons, ih (acc.push (f x))]
    have hpush : (acc.push (f x)).toList = acc.toList ++ [f x] := rfl
    rw [hpush]
    simp

theorem roomIdCharacters_char_mem (n : Nat) :
    roomIdCharacters.toList.getD (n % roomIdCharacters.length) 'A' ∈
      roomIdCharacters.toList := by
  have hlt : n % roomIdCharacters.length < roomIdCharacters.toList.length := by
    have h32 : roomIdCharacters.length = 32 := by decide
    have h32' : roomIdCharacters.toList.length = 32 := by decide
    rw [h32, h32']
    exact Nat.mod_lt n (by norm_num)
  exact getD_mem_of_lt _ _ _ hlt

/-- Claim C3, as stated, is false: the fixed alphabet in `helpers.ts` has
32 symbols, not 33 (24 letters after dropping `O` and `I`, plus the 8
digits `2`-`9`). -/
theorem c3_counterexample :
    roomIdCharacters.toList.length = 32 ∧ ¬ roomIdCharacters.toList.length = 33 := by
  decide

/-- Claim C3 (amended): `generateRoomId` always returns a 6-character
string whose every character is drawn from the fixed 32-symbol alphabet,
an alphabet that excludes the visually confusable characters `0`, `O`,
`1` and `I`. -/
theorem c3_generateRoomId_length_alphabet (rand : Nat → Nat) :
    (generateRoomId rand).length = 6 ∧
    (∀ c ∈ (generateRoomId rand).toList, c ∈ roomIdCharacters.toList) ∧
    roomIdCharacters.toList.length = 32 ∧
    '0' ∉ roomIdCharacters.toList ∧ 'O' ∉ roomIdCharacters.toList ∧
    '1' ∉ roomIdCharacters.toList ∧ 'I' ∉ roomIdCharacters.toList := by
  have htl : (generateRoomId rand).toList =
      (List.range 6).map
        (fun i => roomIdCharacters.toList.getD (rand i % roomIdCharacters.length) 'A') := by
    simpa [generateRoomId] using
      toList_foldl_push (List.range 6)
        (fun i => roomIdCharacters.toList.getD (rand i % roomIdCharacters.length) 'A') ""
  refine ⟨?_, ?_, by decide, by decide, by decide, by decide, by decide⟩
  · have hl : (generateRoomId rand).toList.length = 6 := by rw [htl]; simp
    exact hl
  · intro c hc
    rw [htl] at hc
    rcases List.mem_map.mp hc with ⟨i, _, rfl⟩
    exact roomIdCharacters_char_mem (rand i)

/-- Claim C3 witness: at the concrete draw stream `i * 7` the generated
code has length 6 and its first character is in the alphabet. -/
theorem c3_generateRoomId_length_alphabet_witness :
    (generateRoomId (fun i => i * 7)).length = 6 ∧ 'A' ∈ roomIdCharacters.toList :=
  ⟨(c3_generateRoomId_length_alphabet (fun i => i * 7)).1,
   (c3_generateRoomId_length_alphabet (fun i => i * 7)).2.1 'A' (by decide)⟩

/-- Claim C5, as stated, is false: `addPlayer` pushes the new record onto
the stored state blob's `players` array, and `removePlayer` filters it,
so both change the blob. Concretely, adding `p` to a fresh room changes
the blob, and removing the host changes it back-breakingly too. -/
theorem c5_counterexample :
    ((GameRoom.create "R" "h" "H").addPlayer "p" "n").1.gameState ≠
      (GameRoom.create "R" "h" "H").gameState ∧
    ((GameRoom.create "R" "h" "H").removePlayer "h").gameState ≠
      (GameRoom.create "R" "h" "H").gameState := by
  decide

/-- Claim C5 (amended): `addPlayer` and `removePlayer` change the stored
state blob only in its `players` field — overwriting that field with its
old value recovers the old blob exactly, so `phase`, `currentRound`, the
words, the optional round fields and `roleDistribution` are all
untouched; the blob is replaced wholesale only by `updateGameState`. -/
theorem c5_blob_only_players_field (room : GameRoom) (pid pname : String) :
    { ((room.addPlayer pid pname).1.gameState) with
        players := room.gameState.players } = room.gameState ∧
    { ((room.removePlayer pid).gameState) with
        players := room.gameState.players } = room.gameState := by
  cases room with
  | mk roomId hostId players gameState =>
    cases gameState
    exact ⟨rfl, rfl⟩

theorem mapHas_foldl_mapSet (ps : List Player) (m : List (String × Player)) (k : String) :
    mapHas (ps.foldl (fun acc p => mapSet acc p.id p) m) k = true ↔
      (mapHas m k = true ∨ ∃ p ∈ ps, p.id = k) := by
  induction ps generalizing m with
  | nil => simp
  | cons p ps ih =>
    rw [List.foldl_cons, ih (mapSet m p.id p)]
    rw [mapHas_mapSet m p.id k p]
    constructor
    · rintro ((rfl | hm) | ⟨q, hq, rfl⟩)
      · exact Or.inr ⟨p, List.mem_cons_self p ps, rfl⟩
      · exact Or.inl hm
      · exact Or.inr ⟨q, List.mem_cons_of_mem p hq, rfl⟩
    · rintro (hm | ⟨q, hq, rfl⟩)
      · exact Or.inl (Or.inr hm)
      · rcases List.mem_cons.mp hq with rfl | hq'
        · exact Or.inl (Or.inl rfl)
        · exact Or.inr ⟨q, hq', rfl⟩

/-- Claim C6, as stated, is false: an accepted publish does not leave the
member set unchanged. When the host of room `RRRRRR` publishes a state
whose `players` list contains the unknown id `x`, `updateGameState`
upserts `x` into the room's members map. -/
theorem c6_counterexample :
    (mapGet (handleUpdateGameState sHost "h" stNewX).rooms "RRRRRR").map
        (fun r => mapHas r.players "x") = some true ∧
    (mapGet sHost.rooms "RRRRRR").map (fun r => mapHas r.players "x") = some false := by
  decide

/-- Claim C6 (amended): an accepted publish replaces the stored state
blob as one unit (the old value is discarded, not merged) and leaves the
host identity and the room code unchanged; the member set, however, is
not left unchanged in general: after the publish an id is a member
exactly when it was a member before or occurs in the published blob's
`players` list. -/
theorem c6_publish_replaces_blob (room : GameRoom) (st : GameState) (k : String) :
    (room.updateGameState st).gameState = st ∧
    (room.updateGameState st).roomId = room.roomId ∧
    (room.updateGameState st).hostId = room.hostId ∧
    (mapHas (room.updateGameState st).players k = true ↔
      (mapHas room.players k = true ∨ ∃ p ∈ st.players, p.id = k)) := by
  refine ⟨rfl, rfl, rfl, ?_⟩
  exact mapHas_foldl_mapSet st.players room.players k

theorem mapHas_mapSet_present {α : Type} (m : List (String × α)) (k k' : String) (v : α)
    (h : mapHas m k = true) : mapHas (mapSet m k v) k' = mapHas m k' := by
  rcases Bool.eq_false_or_eq_true (mapHas m k') with val | val
  · rw [val]
    exact (mapHas_mapSet m k k' v).mpr (Or.inr val)
  · rw [val, ← Bool.not_eq_true, mapHas_mapSet]
    rintro (rfl | hm)
    · rw [val] at h
      exact Bool.false_ne_true h
    · rw [val] at hm
      exact Bool.false_ne_true hm

/-- Claim C7, as stated, is false: `addPlayer` never checks membership,
so adding the same identity twice is not the same as adding it once —
the second call appends a duplicate record to the stored blob's
`players` list (length 3 instead of 2 here). -/
theorem c7_counterexample :
    (((GameRoom.create "R" "h" "H").addPlayer "p" "n").1.addPlayer "p" "n").1 ≠
      ((GameRoom.create "R" "h" "H").addPlayer "p" "n").1 ∧
    (((GameRoom.create "R" "h" "H").addPlayer "p" "n").1.addPlayer "p" "n").1.gameState.players.length = 3 := by
  decide

/-- Claim C7 (amended): when the identity is already a member,
`addPlayer` leaves the members map's key set unchanged (the `Map.set`
overwrites the existing entry), but it is not idempotent: it still
appends a duplicate `{id, name}` record to the stored blob's `players`
array, so adding twice differs from adding once in the blob. -/
theorem c7_addPlayer_not_idempotent (room : GameRoom) (pid pname : String)
    (h : mapHas room.players pid = true) :
    (∀ k, mapHas ((room.addPlayer pid pname).1).players k = mapHas room.players k) ∧
    ((room.addPlayer pid pname).1).gameState.players =
      room.gameState.players ++ [{ id := pid, name := pname }] := by
  constructor
  · intro k
    exact mapHas_mapSet_present room.players pid k _ h
  · rfl

/-- Claim C7 witness: re-adding `p` to a room that already has members
`h` and `p` keeps the key set (checked at key `q`) and appends the
duplicate record. -/
theorem c7_addPlayer_not_idempotent_witness :
    mapHas (((roomTwoMembers.addPlayer "m" "M").1).players) "q" =
      mapHas roomTwoMembers.players "q" ∧
    ((roomTwoMembers.addPlayer "m" "M").1).gameState.players =
      roomTwoMembers.gameState.players ++ [{ id := "m", name := "M" }] :=
  ⟨(c7_addPlayer_not_idempotent roomTwoMembers "m" "M" (by decide)).1 "q",
   (c7_addPlayer_not_idempotent roomTwoMembers "m" "M" (by decide)).2⟩

/-- Claim C1: for a sender resolved through both registries to a room,
the `updateGameState` handler stores the published blob if and only if
the resolved identity is the room's host; a non-host publish leaves the
whole server state (and so the stored blob) unchanged and is silently
dropped. -/
theorem c1_publish_host_only (s : ServerState) (sid pid rid : String)
    (room : GameRoom) (st : GameState)
    (h1 : mapGet s.socketToPlayer sid = some pid)
    (h2 : mapGet s.playerToRoom pid = some rid)
    (h3 : mapGet s.rooms rid = some room) :
    (pid = room.hostId →
      mapGet (handleUpdateGameState s sid st).rooms rid =
          some (room.updateGameState st) ∧
      (room.updateGameState st).gameState = st) ∧
    (pid ≠ room.hostId → handleUpdateGameState s sid st = s) := by
  constructor
  · intro hpid
    subst hpid
    refine ⟨?_, rfl⟩
    simp only [handleUpdateGameState, h1, h2, h3]
    rw [if_neg (by simp)]
    exact mapGet_mapSet_self s.rooms rid (room.updateGameState st)
  · intro hpid
    simp only [handleUpdateGameState, h1, h2, h3]
    rw [if_pos (Ne.symm hpid)]

/-- Claim C1 witness: in room `RRRRRR` the host `h` has published `stA`;
the follower `f` then attempts to publish `stB`, the server state is
unchanged and the stored blob remains `stA`. -/
theorem c1_publish_host_only_witness :
    (mapGet sAfterA.rooms "RRRRRR").map GameRoom.gameState = some stA ∧
    handleUpdateGameState sAfterA "f" stB = sAfterA :=
  ⟨by decide,
   (c1_publish_host_only sAfterA "f" "f" "RRRRRR" roomAfterA stB
      (by decide) (by decide) (by decide)).2 (by decide)⟩

/-- Claim C10: a join request for any room present in the directory
always succeeds — the callback gets `success = true` with no message and
the sender is stored as a member — with no precondition beyond room
existence (the statement quantifies over arbitrary rooms: any member
count, any game phase, any display names). -/
theorem c10_join_unconditional (s : ServerState) (sid rid name : String)
    (room : GameRoom) (h : mapGet s.rooms rid = some room) :
    (handleJoinRoom s sid rid name).2.success = true ∧
    (handleJoinRoom s sid rid name).2.message = none ∧
    mapGet (handleJoinRoom s sid rid name).1.rooms rid =
      some ((room.addPlayer sid name).1) ∧
    mapHas ((room.addPlayer sid name).1).players sid = true := by
  refine ⟨?_, ?_, ?_, ?_⟩
  · simp only [handleJoinRoom, h]
  · simp only [handleJoinRoom, h]
  · simp only [handleJoinRoom, h]
    exact mapGet_mapSet_self s.rooms rid ((room.addPlayer sid name).1)
  · exact (mapHas_mapSet room.players sid sid _).mpr (Or.inl rfl)

/-- Claim C10 witness: a third connection `g` joins room `RRRRRR` in the
middle of a game (phase `wordReveal`, after the host published `stA`)
under the display name `F` already used by the follower — the join still
succeeds and `g` becomes a member. -/
theorem c10_join_unconditional_witness :
    (handleJoinRoom sAfterA "g" "RRRRRR" "F").2.success = true ∧
    mapHas ((roomAfterA.addPlayer "g" "F").1).players "g" = true :=
  ⟨(c10_join_unconditional sAfterA "g" "RRRRRR" "F" roomAfterA (by decide)).1,
   (c10_join_unconditional sAfterA "g" "RRRRRR" "F" roomAfterA (by decide)).2.2.2⟩

/-- Claim C9: when the last member of a room leaves or disconnects, the
room is removed from the directory — `get` on its code returns absent —
and the code is immediately reusable: a later `createRoom` whose
generator returns that same code stores a fresh room under it. -/
theorem c9_empty_room_reclaimed (s : ServerState) (sid pid rid : String)
    (room : GameRoom)
    (h1 : mapGet s.socketToPlayer sid = some pid)
    (h2 : mapGet s.playerToRoom pid = some rid)
    (h3 : mapGet s.rooms rid = some room)
    (h4 : (room.removePlayer pid).isEmpty = true) :
    mapGet (handlePlayerDisconnect s sid).rooms rid = none ∧
    ∀ sid2 name2 gen, gen 0 = rid →
      ∃ s2, handleCreateRoom (handlePlayerDisconnect s sid) sid2 name2 gen 1 =
          some (s2, rid) ∧
        mapGet s2.rooms rid = some (GameRoom.create rid sid2 name2) := by
  have hrooms : (handlePlayerDisconnect s sid).rooms =
      mapDelete (mapSet s.rooms rid (room.removePlayer pid)) rid := by
    simp [handlePlayerDisconnect, h1, h2, h3, h4]
  have habsent : mapGet (handlePlayerDisconnect s sid).rooms rid = none := by
    rw [hrooms]
    exact mapGet_mapDelete_self _ rid
  have hfresh : mapHas (handlePlayerDisconnect s sid).rooms rid = false := by
    rw [hrooms]
    exact mapHas_mapDelete_self _ rid
  refine ⟨habsent, ?_⟩
  intro sid2 name2 gen hg
  refine ⟨{ rooms := mapSet (handlePlayerDisconnect s sid).rooms rid
              (GameRoom.create rid sid2 name2)
            socketToPlayer :=
              mapSet (handlePlayerDisconnect s sid).socketToPlayer sid2 sid2
            playerToRoom :=
              mapSet (handlePlayerDisconnect s sid).playerToRoom sid2 rid },
          ?_, ?_⟩
  · simp [handleCreateRoom, RoomManager.createRoom, pickFreshCode, hg, hfresh]
  · exact mapGet_mapSet_self _ rid _

/-- Claim C9 witness: host `h` is the only member of room `RRRRRR`; after
`h` disconnects the room code resolves to absent, and a `createRoom` by
`h2` whose generator emits `RRRRRR` again stores a fresh room there. -/
theorem c9_empty_room_reclaimed_witness :
    mapGet (handlePlayerDisconnect sHost "h").rooms "RRRRRR" = none ∧
    (∃ s2, handleCreateRoom (handlePlayerDisconnect sHost "h") "h2" "H2" genR 1 =
        some (s2, "RRRRRR") ∧
      mapGet s2.rooms "RRRRRR" = some (GameRoom.create "RRRRRR" "h2" "H2")) :=
  ⟨(c9_empty_room_reclaimed sHost "h" "h" "RRRRRR" (GameRoom.create "RRRRRR" "h" "H")
      (by decide) (by decide) (by decide) (by decide)).1,
   (c9_empty_room_reclaimed sHost "h" "h" "RRRRRR" (GameRoom.create "RRRRRR" "h" "H")
      (by decide) (by decide) (by decide) (by decide)).2 "h2" "H2" genR rfl⟩

/-- Server state after the host `h` of the two-member room `RRRRRR`
disconnects while follower `f` remains. -/
def sHostLeft : ServerState := handlePlayerDisconnect sTwo "h"

/-- Claim C4, as stated, is false: after the host `h` of the two-member
room `RRRRRR` disconnects, the room is still live (present in the
directory and non-empty, since `f` remains) but the host identity on
record is no longer a current member — no host migration happens. -/
theorem c4_counterexample :
    (mapGet sHostLeft.rooms "RRRRRR").map (fun r => mapHas r.players r.hostId) =
      some false ∧
    (mapGet sHostLeft.rooms "RRRRRR").map GameRoom.isEmpty = some false := by
  decide

/-- Claim C4 (amended): a room always has exactly one host identity — the
`hostId` fixed at construction and never reassigned by `addPlayer`,
`removePlayer` or `updateGameState` — and the host is a member at
creation and stays a member under removals of other members; removing
the host itself, however, leaves a live room whose host identity is not
a current member. -/
theorem c4_host_member_until_host_leaves (rid hid hname : String) (room : GameRoom)
    (pid : String) (st : GameState)
    (hne : pid ≠ room.hostId) (hmem : mapHas room.players room.hostId = true) :
    (GameRoom.create rid hid hname).hostId = hid ∧
    mapHas (GameRoom.create rid hid hname).players hid = true ∧
    ((room.addPlayer pid hname).1).hostId = room.hostId ∧
    (room.removePlayer pid).hostId = room.hostId ∧
    (room.updateGameState st).hostId = room.hostId ∧
    mapHas (room.removePlayer pid).players room.hostId = true := by
  refine ⟨rfl, ?_, rfl, rfl, rfl, ?_⟩
  · exact (mapHas_mapSet [] hid hid _).mpr (Or.inl rfl)
  · rw [show (room.removePlayer pid).players = mapDelete room.players pid from rfl,
        mapHas_mapDelete_ne room.players pid room.hostId (Ne.symm hne)]
    exact hmem

/-- Claim C4 witness: removing the non-host member `m` from the
two-member room leaves the host `h` a member. -/
theorem c4_host_member_until_host_leaves_witness :
    mapHas (roomTwoMembers.removePlayer "m").players roomTwoMembers.hostId = true :=
  (c4_host_member_until_host_leaves "Q" "q" "QN" roomTwoMembers "m" stB
      (by decide) (by decide)).2.2.2.2.2

theorem pickFreshCode_stuck (gen : Nat → String) (rooms : List (String × GameRoom))
    (h : ∀ i, mapHas rooms (gen i) = true) :
    ∀ fuel i, pickFreshCode gen rooms i fuel = none := by
  intro fuel
  induction fuel with
  | zero => intro i; rfl
  | succ n ih =>
    intro i
    simp only [pickFreshCode, h i, if_true]
    exact ih (i + 1)

/-- Claim C8, as stated, is false: the retry loop in
`RoomManager.createRoom` has no defensive upper bound of attempts. For
the generator stream that always returns `RRRRRR`, a code colliding with
the live room of `sHost`, no number of loop iterations ever produces a
result: the loop runs forever. -/
theorem c8_counterexample :
    ¬ ∃ fuel, (pickFreshCode genR sHost.rooms 0 fuel).isSome = true := by
  rintro ⟨fuel, hsome⟩
  have hall : ∀ i, mapHas sHost.rooms (genR i) = true := by
    intro i
    show mapHas sHost.rooms "RRRRRR" = true
    decide
  rw [pickFreshCode_stuck genR sHost.rooms hall fuel 0] at hsome
  exact Bool.false_ne_true hsome

theorem pickFreshCode_hits (gen : Nat → String) (rooms : List (String × GameRoom)) :
    ∀ k j, mapHas rooms (gen (j + k)) = false →
      ∃ code, pickFreshCode gen rooms j (k + 1) = some code ∧
        mapHas rooms code = false := by
  intro k
  induction k with
  | zero =>
    intro j h
    refine ⟨gen j, ?_, by simpa using h⟩
    simp only [pickFreshCode]
    rw [if_neg (by simp only [Nat.add_zero] at h; rw [h]; exact Bool.false_ne_true)]
  | succ n ih =>
    intro j h
    by_cases hj : mapHas rooms (gen j) = true
    · have step : pickFreshCode gen rooms j (n + 1 + 1) =
          pickFreshCode gen rooms (j + 1) (n + 1) := by
        simp only [pickFreshCode, hj, if_true]
      rw [step]
      exact ih (j + 1) (by rw [show j + 1 + n = j + (n + 1) from by omega]; exact h)
    · refine ⟨gen j, ?_, by simpa using hj⟩
      simp only [pickFreshCode]
      rw [if_neg hj]

/-- Claim C8 (amended): the retry loop has no defensive upper bound and
does not terminate on a generator stream all of whose outputs collide
with live rooms; it terminates exactly when the stream eventually yields
a non-colliding code — if the draw at index `k` is absent from the
directory, the loop returns within `k + 1` iterations a code that is
absent from the directory. -/
theorem c8_retry_terminates_iff_fresh_draw (gen : Nat → String)
    (rooms : List (String × GameRoom)) (k : Nat)
    (h : mapHas rooms (gen k) = false) :
    ∃ code, pickFreshCode gen rooms 0 (k + 1) = some code ∧
      mapHas rooms code = false := by
  have := pickFreshCode_hits gen rooms k 0 (by simpa using h)
  simpa using this

/-- A generator stream whose first draw collides with room `RRRRRR` and
whose second draw is the fresh code `SSSSSS`. -/
def genRS : Nat → String := fun j => if j = 0 then "RRRRRR" else "SSSSSS"

/-- Claim C8 witness: against the directory of `sHost` (which holds room
`RRRRRR`), the stream `genRS` collides at draw 0 and is fresh at draw 1,
and the loop returns a fresh code within 2 iterations. -/
theorem c8_retry_terminates_iff_fresh_draw_witness :
    mapHas sHost.rooms (genRS 1) = false ∧
    ∃ code, pickFreshCode genRS sHost.rooms 0 2 = some code ∧
      mapHas sHost.rooms code = false :=
  ⟨by decide, c8_retry_terminates_iff_fresh_draw genRS sHost.rooms 1 (by decide)⟩

/-- Bidirectional consistency between the `playerToRoom` registry and
room membership: an identity is bound to a room code exactly when it is
a member of the room stored under that code. -/
def Consistent (s : ServerState) : Prop :=
  ∀ pid rid, mapGet s.playerToRoom pid = some rid ↔
    ∃ room, mapGet s.rooms rid = some room ∧ mapHas room.players pid = true

theorem consistent_initial : Consistent ServerState.initial := by
  intro pid rid
  constructor
  · intro h
    simp [ServerState.initial, mapGet] at h
  · rintro ⟨room, hroom, _⟩
    simp [ServerState.initial, mapGet] at hroom

theorem mapHas_mapSet_ne {α : Type} (m : List (String × α)) (k k' : String) (v : α)
    (h : k' ≠ k) : mapHas (mapSet m k v) k' = mapHas m k' := by
  rcases Bool.eq_false_or_eq_true (mapHas m k') with val | val
  · rw [val]
    exact (mapHas_mapSet m k k' v).mpr (Or.inr val)
  · rw [val, ← Bool.not_eq_true, mapHas_mapSet]
    rintro (rfl | hm)
    · exact h rfl
    · rw [val] at hm
      exact Bool.false_ne_true hm

theorem pickFreshCode_fresh (gen : Nat → String) (rooms : List (String × GameRoom)) :
    ∀ fuel i code, pickFreshCode gen rooms i fuel = some code →
      mapHas rooms code = false := by
  intro fuel
  induction fuel with
  | zero =>
    intro i code h
    simp [pickFreshCode] at h
  | succ n ih =>
    intro i code h
    by_cases hb : mapHas rooms (gen i) = true
    · simp only [pickFreshCode, hb, if_true] at h
      exact ih (i + 1) code h
    · simp only [pickFreshCode] at h
      rw [if_neg hb] at h
      injection h with h
      subst h
      simpa using hb

theorem consistent_create (s : ServerState) (sid name : String) (gen : Nat → String)
    (fuel : Nat) (s' : ServerState) (code : String)
    (hc : Consistent s) (hun : mapGet s.playerToRoom sid = none)
    (h : handleCreateRoom s sid name gen fuel = some (s', code)) :
    Consistent s' := by
  unfold handleCreateRoom RoomManager.createRoom at h
  cases hp : pickFreshCode gen s.rooms 0 fuel with
  | none =>
    rw [hp] at h
    exact Option.noConfusion h
  | some c =>
    rw [hp] at h
    simp only [Option.some.injEq, Prod.mk.injEq] at h
    obtain ⟨rfl, rfl⟩ := h
    have hfresh : mapHas s.rooms c = false := pickFreshCode_fresh gen s.rooms fuel 0 c hp
    intro pid rid
    show mapGet (mapSet s.playerToRoom sid c) pid = some rid ↔
      ∃ room, mapGet (mapSet s.rooms c (GameRoom.create c sid name)) rid = some room ∧
        mapHas room.players pid = true
    by_cases hpid : pid = sid
    · subst hpid
      by_cases hrid : rid = c
      · subst hrid
        constructor
        · intro _
          refine ⟨GameRoom.create rid pid name, mapGet_mapSet_self _ _ _, ?_⟩
          show mapHas (mapSet [] pid { id := pid, name := name }) pid = true
          exact (mapHas_mapSet [] pid pid _).mpr (Or.inl rfl)
        · intro _
          exact mapGet_mapSet_self _ _ _
      · constructor
        · intro hbind
          rw [mapGet_mapSet_self] at hbind
          injection hbind with hb
          exact absurd hb.symm hrid
        · rintro ⟨room, hroom, hmem⟩
          rw [mapGet_mapSet_ne _ _ _ _ hrid] at hroom
          have hb := (hc pid rid).mpr ⟨room, hroom, hmem⟩
          rw [hun] at hb
          exact Option.noConfusion hb
    · have hbind_eq : mapGet (mapSet s.playerToRoom sid c) pid =
          mapGet s.playerToRoom pid := mapGet_mapSet_ne _ _ _ _ hpid
      by_cases hrid : rid = c
      · subst hrid
        constructor
        · intro hbind
          rw [hbind_eq] at hbind
          obtain ⟨room, hroom, _⟩ := (hc pid rid).mp hbind
          have hh : mapHas s.rooms rid = true := (mapHas_iff_mapGet _ _).mpr ⟨room, hroom⟩
          rw [hfresh] at hh
          exact Bool.noConfusion hh
        · rintro ⟨room, hroom, hmem⟩
          rw [mapGet_mapSet_self] at hroom
          injection hroom with hroom
          subst hroom
          have := (mapHas_mapSet [] sid pid { id := sid, name := name }).mp hmem
          rcases this with rfl | hfalse
          · exact absurd rfl hpid
          · simp [mapHas] at hfalse
      · have hrooms_eq : mapGet (mapSet s.rooms c (GameRoom.create c sid name)) rid =
            mapGet s.rooms rid := mapGet_mapSet_ne _ _ _ _ hrid
        rw [hbind_eq, hrooms_eq]
        exact hc pid rid

theorem consistent_join (s : ServerState) (sid rid0 name : String)
    (hc : Consistent s) (hun : mapGet s.playerToRoom sid = none) :
    Consistent (handleJoinRoom s sid rid0 name).1 := by
  cases hroom0 : mapGet s.rooms rid0 with
  | none =>
    simp only [handleJoinRoom, hroom0]
    exact hc
  | some room =>
    simp only [handleJoinRoom, hroom0]
    intro pid rid
    show mapGet (mapSet s.playerToRoom sid rid0) pid = some rid ↔
      ∃ r, mapGet (mapSet s.rooms rid0 ((room.addPlayer sid name).1)) rid = some r ∧
        mapHas r.players pid = true
    by_cases hpid : pid = sid
    · subst hpid
      by_cases hrid : rid = rid0
      · subst hrid
        constructor
        · intro _
          refine ⟨(room.addPlayer pid name).1, mapGet_mapSet_self _ _ _, ?_⟩
          show mapHas (mapSet room.players pid { id := pid, name := name }) pid = true
          exact (mapHas_mapSet room.players pid pid _).mpr (Or.inl rfl)
        · intro _
          exact mapGet_mapSet_self _ _ _
      · constructor
        · intro hbind
          rw [mapGet_mapSet_self] at hbind
          injection hbind with hb
          exact absurd hb.symm hrid
        · rintro ⟨r, hr, hmem⟩
          rw [mapGet_mapSet_ne _ _ _ _ hrid] at hr
          have hb := (hc pid rid).mpr ⟨r, hr, hmem⟩
          rw [hun] at hb
          exact Option.noConfusion hb
    · have hbind_eq : mapGet (mapSet s.playerToRoom sid rid0) pid =
          mapGet s.playerToRoom pid := mapGet_mapSet_ne _ _ _ _ hpid
      by_cases hrid : rid = rid0
      · subst hrid
        constructor
        · intro hbind
          rw [hbind_eq] at hbind
          obtain ⟨r, hr, hmem⟩ := (hc pid rid).mp hbind
          rw [hroom0] at hr
          injection hr with hr
          subst hr
          refine ⟨(room.addPlayer sid name).1, mapGet_mapSet_self _ _ _, ?_⟩
          show mapHas (mapSet room.players sid { id := sid, name := name }) pid = true
          rw [mapHas_mapSet_ne room.players sid pid _ hpid]
          exact hmem
        · rintro ⟨r, hr, hmem⟩
          rw [mapGet_mapSet_self] at hr
          injection hr with hr
          subst hr
          rw [hbind_eq]
          refine (hc pid rid).mpr ⟨room, hroom0, ?_⟩
          have hmem' : mapHas (mapSet room.players sid { id := sid, name := name })
              pid = true := hmem
          rw [mapHas_mapSet_ne room.players sid pid _ hpid] at hmem'
          exact hmem'
      · have hrooms_eq :
            mapGet (mapSet s.rooms rid0 ((room.addPlayer sid name).1)) rid =
              mapGet s.rooms rid := mapGet_mapSet_ne _ _ _ _ hrid
        rw [hbind_eq, hrooms_eq]
        exact hc pid rid

theorem consistent_disconnect (s : ServerState) (sid : String) (hc : Consistent s) :
    Consistent (handlePlayerDisconnect s sid) := by
  cases h1 : mapGet s.socketToPlayer sid with
  | none =>
    simp only [handlePlayerDisconnect, h1]
    exact hc
  | some pid0 =>
    cases h2 : mapGet s.playerToRoom pid0 with
    | none =>
      simp only [handlePlayerDisconnect, h1, h2]
      exact hc
    | some rid0 =>
      cases h3 : mapGet s.rooms rid0 with
      | none =>
        simp only [handlePlayerDisconnect, h1, h2, h3]
        exact hc
      | some room =>
        by_cases hemp : (room.removePlayer pid0).isEmpty = true
        · have hs : handlePlayerDisconnect s sid =
              { rooms := mapDelete (mapSet s.rooms rid0 (room.removePlayer pid0)) rid0
                socketToPlayer := mapDelete s.socketToPlayer sid
                playerToRoom := mapDelete s.playerToRoom pid0 } := by
            simp [handlePlayerDisconnect, h1, h2, h3, hemp]
          have hnil : mapDelete room.players pid0 = [] := by
            have : (room.removePlayer pid0).players.isEmpty = true := hemp
            exact List.isEmpty_iff.mp this
          rw [hs]
          intro pid rid
          show mapGet (mapDelete s.playerToRoom pid0) pid = some rid ↔
            ∃ r, mapGet (mapDelete (mapSet s.rooms rid0 (room.removePlayer pid0)) rid0)
                rid = some r ∧ mapHas r.players pid = true
          by_cases hpid : pid = pid0
          · subst hpid
            constructor
            · intro hbind
              rw [mapGet_mapDelete_self] at hbind
              exact Option.noConfusion hbind
            · rintro ⟨r, hr, hmem⟩
              by_cases hrid : rid = rid0
              · subst hrid
                rw [mapGet_mapDelete_self] at hr
                exact Option.noConfusion hr
              · rw [mapGet_mapDelete_ne _ _ _ hrid,
                    mapGet_mapSet_ne _ _ _ _ hrid] at hr
                have hb := (hc pid rid).mpr ⟨r, hr, hmem⟩
                rw [h2] at hb
                injection hb with hb
                exact absurd hb.symm hrid
          · constructor
            · intro hbind
              rw [mapGet_mapDelete_ne _ _ _ hpid] at hbind
              by_cases hrid : rid = rid0
              · subst hrid
                obtain ⟨r, hr, hmem⟩ := (hc pid rid).mp hbind
                rw [h3] at hr
                injection hr with hr
                subst hr
                have hmem' : mapHas (mapDelete room.players pid0) pid = true := by
                  rw [mapHas_mapDelete_ne _ _ _ hpid]
                  exact hmem
                rw [hnil] at hmem'
                simp [mapHas] at hmem'
              · obtain ⟨r, hr, hmem⟩ := (hc pid rid).mp hbind
                refine ⟨r, ?_, hmem⟩
                rw [mapGet_mapDelete_ne _ _ _ hrid, mapGet_mapSet_ne _ _ _ _ hrid]
                exact hr
            · rintro ⟨r, hr, hmem⟩
              by_cases hrid : rid = rid0
              · subst hrid
                rw [mapGet_mapDelete_self] at hr
                exact Option.noConfusion hr
              · rw [mapGet_mapDelete_ne _ _ _ hrid,
                    mapGet_mapSet_ne _ _ _ _ hrid] at hr
                rw [mapGet_mapDelete_ne _ _ _ hpid]
                exact (hc pid rid).mpr ⟨r, hr, hmem⟩
        · have hs : handlePlayerDisconnect s sid =
              { rooms := mapSet s.rooms rid0 (room.removePlayer pid0)
                socketToPlayer := mapDelete s.socketToPlayer sid
                playerToRoom := mapDelete s.playerToRoom pid0 } := by
            simp [handlePlayerDisconnect, h1, h2, h3, hemp]
          rw [hs]
          intro pid rid
          show mapGet (mapDelete s.playerToRoom pid0) pid = some rid ↔
            ∃ r, mapGet (mapSet s.rooms rid0 (room.removePlayer pid0)) rid = some r ∧
              mapHas r.players pid = true
          by_cases hpid : pid = pid0
          · subst hpid
            constructor
            · intro hbind
              rw [mapGet_mapDelete_self] at hbind
              exact Option.noConfusion hbind
            · rintro ⟨r, hr, hmem⟩
              by_cases hrid : rid = rid0
              · subst hrid
                rw [mapGet_mapSet_self] at hr
                injection hr with hr
                subst hr
                have hmem' : mapHas (mapDelete room.players pid) pid = true := hmem
                rw [mapHas_mapDelete_self] at hmem'
                exact Bool.noConfusion hmem'
              · rw [mapGet_mapSet_ne _ _ _ _ hrid] at hr
                have hb := (hc pid rid).mpr ⟨r, hr, hmem⟩
                rw [h2] at hb
                injection hb with hb
                exact absurd hb.symm hrid
          · constructor
            · intro hbind
              rw [mapGet_mapDelete_ne _ _ _ hpid] at hbind
              by_cases hrid : rid = rid0
              · subst hrid
                obtain ⟨r, hr, hmem⟩ := (hc pid rid).mp hbind
                rw [h3] at hr
                injection hr with hr
                subst hr
                refine ⟨room.removePlayer pid0, mapGet_mapSet_self _ _ _, ?_⟩
                show mapHas (mapDelete room.players pid0) pid = true
                rw [mapHas_mapDelete_ne _ _ _ hpid]
                exact hmem
              · obtain ⟨r, hr, hmem⟩ := (hc pid rid).mp hbind
                refine ⟨r, ?_, hmem⟩
                rw [mapGet_mapSet_ne _ _ _ _ hrid]
                exact hr
            · rintro ⟨r, hr, hmem⟩
              rw [mapGet_mapDelete_ne _ _ _ hpid]
              by_cases hrid : rid = rid0
              · subst hrid
                rw [mapGet_mapSet_self] at hr
                injection hr with hr
                subst hr
                have hmem' : mapHas (mapDelete room.players pid0) pid = true := hmem
                rw [mapHas_mapDelete_ne _ _ _ hpid] at hmem'
                exact (hc pid rid).mpr ⟨room, h3, hmem'⟩
              · rw [mapGet_mapSet_ne _ _ _ _ hrid] at hr
                exact (hc pid rid).mpr ⟨r, hr, hmem⟩

/-- A generator stream that always returns the code `AAAAAA`. -/
def genA : Nat → String := fun _ => "AAAAAA"

/-- A generator stream that always returns the code `BBBBBB`. -/
def genB : Nat → String := fun _ => "BBBBBB"

/-- Server state after connection `s1` creates room `AAAAAA`. -/
def sOneRoom : ServerState :=
  ((handleCreateRoom ServerState.initial "s1" "alice" genA 1).map Prod.fst).getD
    ServerState.initial

/-- Server state after connection `s2` also creates room `BBBBBB`. -/
def sTwoRooms : ServerState :=
  ((handleCreateRoom sOneRoom "s2" "bob" genB 1).map Prod.fst).getD
    ServerState.initial

/-- Server state after `s1`, already bound to room `AAAAAA`, issues a
join for the different room `BBBBBB`. -/
def sCrossJoin : ServerState := (handleJoinRoom sTwoRooms "s1" "BBBBBB" "alice").1

/-- Claim C2, as stated, is false: after `s1` (bound to room `AAAAAA`)
joins room `BBBBBB`, identity `s1` is still a member of room `AAAAAA`'s
member set while the registry binds `s1` to `BBBBBB`, so the bidirectional
consistency between the binding table and room membership is broken. -/
theorem c2_counterexample : ¬ Consistent sCrossJoin := by
  intro h
  have hmem : ∃ room, mapGet sCrossJoin.rooms "AAAAAA" = some room ∧
      mapHas room.players "s1" = true := by
    refine ⟨GameRoom.create "AAAAAA" "s1" "alice", ?_, ?_⟩
    · decide
    · decide
  have hbind := (h "s1" "AAAAAA").mpr hmem
  have hbb : mapGet sCrossJoin.playerToRoom "s1" = some "BBBBBB" := by decide
  rw [hbb] at hbind
  injection hbind with hb
  exact absurd hb (by decide)

/-- Claim C2 (amended): after a create-room, after a join-room issued by
a connection not currently bound to any room, and after every
leave/disconnect, the binding table and room membership stay
bidirectionally consistent; the excluded case — a connection already
bound to one room joining a different room — breaks the invariant, as
the identity stays in the old room's member set while its binding moves
to the new room. -/
theorem c2_registry_consistency (s : ServerState) (sid name rid : String)
    (gen : Nat → String) (fuel : Nat)
    (hc : Consistent s) (hun : mapGet s.playerToRoom sid = none) :
    (∀ s' code, handleCreateRoom s sid name gen fuel = some (s', code) →
      Consistent s') ∧
    Consistent (handleJoinRoom s sid rid name).1 ∧
    (∀ sid2, Consistent (handlePlayerDisconnect s sid2)) :=
  ⟨fun s' code h => consistent_create s sid name gen fuel s' code hc hun h,
   consistent_join s sid rid name hc hun,
   fun sid2 => consistent_disconnect s sid2 hc⟩

/-- Server state after connection `x` creates room `QQQQQQ` starting
from the empty server state. -/
def sWitQ : ServerState :=
  ((handleCreateRoom ServerState.initial "x" "n" (fun _ => "QQQQQQ") 1).map
      Prod.fst).getD ServerState.initial

/-- Claim C2 witness: from the empty server state, the consistency
invariant holds after `x` creates room `QQQQQQ` and after an arbitrary
disconnect. -/
theorem c2_registry_consistency_witness :
    Consistent sWitQ ∧ Consistent (handlePlayerDisconnect ServerState.initial "y") :=
  ⟨(c2_registry_consistency ServerState.initial "x" "n" "ZZZZZZ"
        (fun _ => "QQQQQQ") 1 consistent_initial rfl).1 sWitQ "QQQQQQ" (by decide),
   (c2_registry_consistency ServerState.initial "x" "n" "ZZZZZZ"
        (fun _ => "QQQQQQ") 1 consistent_initial rfl).2.2 "y"⟩
